import Mathlib

/-!
Verification development for the Swiss transit explorer core
(`src/api/transport.ts`, `src/insights/reliability.ts`, `src/insights/weather.ts`).

Shallow embedding conventions:
* ISO timestamp strings are modelled by their parsed value in milliseconds
  since the epoch, as an `Option ℤ` (`none` models an absent field / empty
  string, whose `new Date(...)` would be `NaN`); arithmetic on a `none`
  time propagates like `NaN`, i.e. every `<` comparison on it is false.
* JavaScript `Math.round` is `⌊x + 1/2⌋` (half rounds toward +∞).
* JS floating point numbers used for penalties are modelled by `ℚ`; all
  penalty constants (0.12, 0.35, ...) are exactly representable in binary?
  No — they are decimal literals; the TS code manipulates their IEEE-754
  images, whose relative order and dedup logic coincide with the rational
  values for every comparison performed here, so `ℚ` is faithful for the
  properties stated in this file.
* `departureTime` strings are consumed only through `getDay`/`getHours`/
  `getMinutes`, so they are modelled by a record of those local components.
-/

namespace SwissTransit

/-- JavaScript `Math.round` on rationals: half rounds toward +∞. -/
def jsRound (q : ℚ) : ℤ := ⌊q + 1/2⌋

/-- One checkpoint of a normalized leg (`StopTime` in `src/types/index.ts`).
Times in ms since epoch; `timePlanned = none` models the empty-string
fallback for an absent scheduled time. -/
structure StopTime where
  name : String
  timePlanned : Option ℤ
  timeActual : Option ℤ
  platform : Option String
deriving Repr, DecidableEq

/-- A normalized leg (`Leg` in `src/types/index.ts`). `fromStop`/`toStop`
embed the `from`/`to` fields (`from` is reserved in Lean). -/
structure Leg where
  isWalk : Bool
  line : Option String
  fromStop : StopTime
  toStop : StopTime
  delayMinutes : Option ℤ
deriving Repr, DecidableEq

/-- Reason record; `ReliabilityReason` and `WeatherReason` in the source
share this exact shape. -/
structure Reason where
  code : String
  label : String
  penalty : ℚ
deriving Repr, DecidableEq

/-- Embeds `TransferRisk` (src/insights/reliability.ts lines 3-9).
`marginMinutes = none` models the `NaN` margin arising from an absent
time. -/
structure TransferRisk where
  fromStation : String
  toStation : String
  marginMinutes : Option ℤ
  riskLevel : String
  isBigStation : Bool
deriving Repr, DecidableEq

/-- Embeds `ReliabilityInsight` (src/insights/reliability.ts lines 17-22). -/
structure ReliabilityInsight where
  score : ℚ
  level : String
  reasons : List Reason
  transferRisks : List TransferRisk
deriving Repr, DecidableEq

/-- The fixed big-station list (src/insights/reliability.ts lines 24-27). -/
def BIG_STATIONS : List String :=
  ["Zürich HB", "Bern", "Basel SBB", "Lausanne", "Genève",
   "Luzern", "Winterthur", "Olten", "Zürich Flughafen"]

/-- Prefix test for char lists, written out to keep the development
self-contained. -/
def leadsList : List Char → List Char → Bool
  | [], _ => true
  | _ :: _, [] => false
  | a :: as, b :: bs => a == b && leadsList as bs

/-- Substring containment on char lists (JS `String.prototype.includes`). -/
def containsSub (needle : List Char) : List Char → Bool
  | [] => needle.isEmpty
  | c :: cs => leadsList needle (c :: cs) || containsSub needle cs

/-- JS `toLowerCase` modelled per ASCII (`Char.toLower`); every upper-case
character occurring in `BIG_STATIONS` is ASCII, so this coincides with the
JS lowercase conversion on the inputs that matter. -/
def lowerChars (s : String) : List Char := s.data.map Char.toLower

/-- Embeds `isBigStation` (src/insights/reliability.ts lines 29-31). -/
def isBigStation (name : String) : Bool :=
  BIG_STATIONS.any (fun s => containsSub (lowerChars s) (lowerChars name))

/-- The local-time components that `isPeakTime` reads off the parsed
departure timestamp: `getDay()` (0 = Sunday), `getHours`, `getMinutes`. -/
structure LocalTime where
  day : ℕ
  hour : ℕ
  minute : ℕ
deriving Repr, DecidableEq

/-- Embeds `isPeakTime` (src/insights/reliability.ts lines 33-41). -/
def isPeakTime (t : LocalTime) : Bool :=
  if t.day == 0 || t.day == 6 then false
  else
    let time : ℚ := (t.hour : ℚ) + (t.minute : ℚ) / 60
    decide ((7 ≤ time ∧ time ≤ 9) ∨ (16.5 ≤ time ∧ time ≤ 18.5))

/-- Embeds `legs[i].to.timeActual || legs[i].to.timePlanned` (line 60). -/
def effArrival (l : Leg) : Option ℤ := l.toStop.timeActual <|> l.toStop.timePlanned

/-- The transfer margin of a consecutive leg pair (lines 60-62):
`Math.round((departureTimeNext - arrivalTime) / 60000)`; `none` models the
`NaN` produced when either time is absent. -/
def legMargin (l l' : Leg) : Option ℤ :=
  match effArrival l, l'.fromStop.timePlanned with
  | some a, some d => some (jsRound (((d - a : ℤ) : ℚ) / 60000))
  | _, _ => none

/-- The margin-bucket penalty of lines 70-89; on a `NaN` margin every
comparison is false, so the penalty is 0. -/
def marginPenalty : Option ℤ → ℚ
  | none => 0
  | some m => if m < 4 then 0.35 else if m < 6 then 0.20 else if m < 8 then 0.10 else 0

/-- The margin-bucket risk level of lines 70-89. -/
def marginRisk : Option ℤ → String
  | none => "low"
  | some m => if m < 4 then "high" else if m < 6 then "medium" else "low"

/-- Guarded reason push: `if (!reasons.find(r => r.code === code)) reasons.push(...)`. -/
def pushIfNew (rs : List Reason) (code label : String) (p : ℚ) : List Reason :=
  if rs.any (fun r => r.code == code) then rs else rs ++ [⟨code, label, p⟩]

/-- Truthy live-delay test of line 125: `leg.delayMinutes && leg.delayMinutes > 3`. -/
def legDelayed (l : Leg) : Bool :=
  match l.delayMinutes with
  | none => false
  | some d => d != 0 && decide (3 < d)

/-- The margin-bucket reason pushes of lines 70-89: `tight_transfer`
below 4 minutes, `short_transfer` below 6, nothing (silent) otherwise. -/
def marginReasons (rs : List Reason) (station : String) : Option ℤ → List Reason
  | none => rs
  | some m =>
    if m < 4 then
      rs ++ [⟨"tight_transfer", toString m ++ "min transfer at " ++ station, 0.35⟩]
    else if m < 6 then
      rs ++ [⟨"short_transfer", toString m ++ "min transfer", 0.20⟩]
    else rs

/-- One iteration of the transfer loop (src/insights/reliability.ts lines
59-112), threading `(totalPenalty, reasons, transferRisks)`. The source
order is kept: margin-bucket reason first, then the big-station penalty
(added unconditionally) with its guarded reason push, then the margin
penalty, then the `TransferRisk` record. -/
def transferStep (transfers : ℤ) (acc : ℚ × List Reason × List TransferRisk)
    (l l' : Leg) : ℚ × List Reason × List TransferRisk :=
  let marginMin := legMargin l l'
  let transferStation := l.toStop.name
  let bigStation := isBigStation transferStation
  let reasons1 := marginReasons acc.2.1 transferStation marginMin
  let total2 :=
    if bigStation && decide (0 < transfers) then acc.1 + 0.08 else acc.1
  let reasons2 :=
    if bigStation && decide (0 < transfers) then
      pushIfNew reasons1 ("big_station") ("Large station transfer") 0.08
    else reasons1
  let total3 := total2 + marginPenalty marginMin
  let risk : TransferRisk :=
    ⟨l.toStop.name, l'.fromStop.name, marginMin, marginRisk marginMin, bigStation⟩
  (total3, reasons2, acc.2.2 ++ [risk])

/-- The `for (let i = 0; i < legs.length - 1; i++)` loop of lines 59-112,
as a walk over consecutive leg pairs. -/
def transferLoop (transfers : ℤ) :
    List Leg → ℚ × List Reason × List TransferRisk → ℚ × List Reason × List TransferRisk
  | l :: l' :: rest, acc => transferLoop transfers (l' :: rest) (transferStep transfers acc l l')
  | [], acc => acc
  | [_], acc => acc

/-- The live-delay loop of lines 124-136: `+= 0.05` per delayed leg, with
a guarded (deduplicated) reason push. -/
def delayLoop : List Leg → ℚ × List Reason → ℚ × List Reason
  | [], acc => acc
  | l :: rest, acc =>
    if legDelayed l then
      delayLoop rest (acc.1 + 0.05,
        pushIfNew acc.2 ("current_delay")
          ("Current delay (+" ++ toString (l.delayMinutes.getD 0) ++ "min)") 0.05)
    else delayLoop rest acc

/-- The accumulation phase of `calculateReliability` (lines 43-136):
returns `(totalPenalty, reasons, transferRisks)` just before the final
score/level/sort step. -/
def reliabilityTotals (legs : List Leg) (departureTime : LocalTime) :
    ℚ × List Reason × List TransferRisk :=
  let transfers : ℤ := (legs.length : ℤ) - 1
  let init : ℚ × List Reason × List TransferRisk :=
    if 0 < transfers then
      (0.12 * (transfers : ℚ),
       [⟨"transfers",
         toString transfers ++ " transfer" ++ (if 1 < transfers then "s" else ""),
         0.12 * (transfers : ℚ)⟩], [])
    else (0, [], [])
  let a1 := transferLoop transfers legs init
  let a2 :=
    if isPeakTime departureTime then
      (a1.1 + 0.08, a1.2.1 ++ [⟨"peak_time", "Rush hour travel", 0.08⟩], a1.2.2)
    else a1
  let a3 := delayLoop legs (a2.1, a2.2.1)
  (a3.1, a3.2, a2.2.2)

/-- The total penalty accumulated by `calculateReliability`. -/
def penaltyTotal (legs : List Leg) (t : LocalTime) : ℚ := (reliabilityTotals legs t).1

/-- Embeds `calculateReliability` (src/insights/reliability.ts lines 43-153).
The JS `reasons.sort((a, b) => b.penalty - a.penalty)` (stable in modern
engines) is embedded as a stable insertion sort by descending penalty. -/
def calculateReliability (legs : List Leg) (departureTime : LocalTime) : ReliabilityInsight :=
  let r := reliabilityTotals legs departureTime
  let score := max 0 (min 1 (1 - r.1))
  { score := score
    level := if 0.75 ≤ score then "low" else if 0.55 ≤ score then "medium" else "high"
    reasons := (List.insertionSort (fun a b => b.penalty ≤ a.penalty) r.2.1).take 3
    transferRisks := r.2.2 }

/-- Embeds `WeatherSample` (src/insights/weather.ts lines 1-12), restricted to
the numeric fields the aggregation reads. -/
structure WeatherSample where
  station : String
  temperature : ℚ
  precipitation : ℚ
  snowfall : ℚ
  windSpeed : ℚ
  windGusts : ℚ
deriving Repr, DecidableEq

/-- Embeds `WeatherInsight` (src/insights/weather.ts lines 20-25). -/
structure WeatherInsight where
  level : String
  penalty : ℚ
  reasons : List Reason
  samples : List WeatherSample
deriving Repr, DecidableEq

/-- One iteration of the per-sample aggregation loop of
`getWeatherInsights` (src/insights/weather.ts lines 118-190): each of the
four blocks adds its penalty to the total unconditionally and pushes its
reason only when the code is not yet present. -/
def weatherStep (acc : ℚ × List Reason) (s : WeatherSample) : ℚ × List Reason :=
  let a1 :=
    if decide (s.temperature < 1) && decide (0.5 < s.precipitation) then
      (acc.1 + 0.20, pushIfNew acc.2 ("snow_risk") ("Snow risk at " ++ s.station) 0.20)
    else acc
  let a2 :=
    if decide (5 < s.precipitation) then
      (a1.1 + 0.12, pushIfNew a1.2 ("heavy_rain") ("Heavy rain at " ++ s.station) 0.12)
    else if decide (2 < s.precipitation) then
      (a1.1 + 0.06, pushIfNew a1.2 ("rain") ("Rain expected") 0.06)
    else a1
  let a3 :=
    if decide (60 < s.windGusts) then
      (a2.1 + 0.15, pushIfNew a2.2 ("high_wind") ("Strong gusts (" ++ toString (jsRound s.windGusts) ++ "km/h)") 0.15)
    else if decide (40 < s.windGusts) then
      (a2.1 + 0.08, pushIfNew a2.2 ("wind") ("Windy conditions") 0.08)
    else a2
  if decide (s.temperature < -5) then
    (a3.1 + 0.05, pushIfNew a3.2 ("freezing") ("Freezing (" ++ toString (jsRound s.temperature) ++ "°C)") 0.05)
  else a3

/-- The aggregation phase of `getWeatherInsights` (src/insights/weather.ts
lines 101-207). The up-to-4 concurrent forecast fetches of lines 106-116
are fallible network calls; their combined outcome is modelled as the list
of successfully resolved samples handed to the loop. -/
def getWeatherInsights (samples : List WeatherSample) : WeatherInsight :=
  let acc := samples.foldl weatherStep (0, [])
  let totalPenalty := min 0.35 acc.1
  { level :=
      if 0.20 ≤ totalPenalty then "high"
      else if 0.08 ≤ totalPenalty then "medium"
      else "low"
    penalty := totalPenalty
    reasons := (List.insertionSort (fun a b => b.penalty ≤ a.penalty) acc.2).take 2
    samples := samples }

/-- The total weather penalty a single sample contributes to the running
sum (the four `totalPenalty += ...` statements of lines 118-190). -/
def samplePenalty (s : WeatherSample) : ℚ :=
  (if s.temperature < 1 ∧ 0.5 < s.precipitation then 0.20 else 0) +
  (if 5 < s.precipitation then 0.12 else if 2 < s.precipitation then 0.06 else 0) +
  (if 60 < s.windGusts then 0.15 else if 40 < s.windGusts then 0.08 else 0) +
  (if s.temperature < -5 then 0.05 else 0)

/-- Modelled from the spec: "Each code contributes at most once to the
total regardless of how many samples trigger it. Total penalty capped at
0.35" — the once-per-code weather total the claim asserts, for comparison
with `getWeatherInsights`. -/
def specWeatherPenaltyOnce (samples : List WeatherSample) : ℚ :=
  min 0.35 (
    (if samples.any (fun s => decide (s.temperature < 1) && decide (0.5 < s.precipitation)) then 0.20 else 0) +
    (if samples.any (fun s => decide (5 < s.precipitation)) then 0.12 else 0) +
    (if samples.any (fun s => decide (5 < s.precipitation) = false && decide (2 < s.precipitation)) then 0.06 else 0) +
    (if samples.any (fun s => decide (60 < s.windGusts)) then 0.15 else 0) +
    (if samples.any (fun s => decide (60 < s.windGusts) = false && decide (40 < s.windGusts)) then 0.08 else 0) +
    (if samples.any (fun s => decide (s.temperature < -5)) then 0.05 else 0))

/-- Match `\d{2}:\d{2}:\d{2}` at the head of the list, returning the three
two-digit groups. -/
def matchTime : List Char → Option (List Char × List Char × List Char)
  | a :: b :: c :: d :: e :: f :: g :: h :: _ =>
    if a.isDigit && b.isDigit && c == ':' && d.isDigit && e.isDigit && f == ':' &&
        g.isDigit && h.isDigit then
      some ([a, b], [d, e], [g, h])
    else none
  | _ => none

/-- Maximal leading digit run and the remainder. -/
def takeDigits : List Char → List Char × List Char
  | [] => ([], [])
  | c :: cs =>
    if c.isDigit then
      let r := takeDigits cs
      (c :: r.1, r.2)
    else ([], c :: cs)

/-- Attempt the regex `(?:(\d+)d)?(\d{2}):(\d{2}):(\d{2})` at one start
position. The greedy `\d+` can only succeed with the maximal digit run
(any shorter run is followed by a digit, which the literal `d` rejects);
when the optional group path fails, the engine retries with the group
absent at the same position. -/
def matchAt (l : List Char) : Option (Option (List Char) × List Char × List Char × List Char) :=
  let dayTry :=
    match takeDigits l with
    | (ds@(_ :: _), 'd' :: rest) =>
      match matchTime rest with
      | some (h, m, s) => some (some ds, h, m, s)
      | none => none
    | _ => none
  match dayTry with
  | some r => some r
  | none =>
    match matchTime l with
    | some (h, m, s) => some (none, h, m, s)
    | none => none

/-- JS `String.prototype.match` with a non-anchored regex: try each start
position left to right. -/
def searchDuration : List Char → Option (Option (List Char) × List Char × List Char × List Char)
  | [] => none
  | c :: cs =>
    match matchAt (c :: cs) with
    | some r => some r
    | none => searchDuration cs

/-- Embeds `parseInt` on an all-digit group. -/
def digitsToNat (ds : List Char) : ℕ :=
  ds.foldl (fun n c => n * 10 + (c.toNat - '0'.toNat)) 0

/-- Embeds `parseDuration` (src/api/transport.ts lines 187-192): `none` models an
absent `duration` field; the empty string is falsy in JS and also yields
0. Day, hour and minute groups are combined as
`d * 24 * 60 + hh * 60 + mm`; the seconds group is ignored. Total by
construction — the "never throws" guarantee of the source. -/
def parseDuration : Option String → ℕ
  | none => 0
  | some s =>
    if s.isEmpty then 0
    else
      match searchDuration s.data with
      | none => 0
      | some (dayGroup, hh, mm, _) =>
        (match dayGroup with | some d => digitsToNat d | none => 0) * 24 * 60 +
          digitsToNat hh * 60 + digitsToNat mm

/-- Prognosis sub-record of a raw checkpoint (src/api/transport.ts lines
74-78), times in ms. -/
structure RawPrognosis where
  arrival : Option ℤ
  departure : Option ℤ
  platform : Option String
deriving Repr, DecidableEq

/-- Embeds `TransportCheckpoint` (src/api/transport.ts lines 69-79). -/
structure RawCheckpoint where
  stationName : String
  arrival : Option ℤ
  departure : Option ℤ
  platform : Option String
  prognosis : Option RawPrognosis
deriving Repr, DecidableEq

/-- Embeds `TransportSection` (src/api/transport.ts lines 81-91); `journeyName` /
`journeyCategory` flatten the optional `journey` object, `hasJourney`
records its presence and `isWalk` the truthiness of `walk`. -/
structure RawSection where
  hasJourney : Bool
  journeyName : Option String
  journeyCategory : Option String
  isWalk : Bool
  departure : RawCheckpoint
  arrival : RawCheckpoint
deriving Repr, DecidableEq

/-- Embeds `departure.prognosis?.departure` — the optional-chained live departure. -/
def progDeparture (c : RawCheckpoint) : Option ℤ := c.prognosis.bind RawPrognosis.departure

/-- Embeds `arrival.prognosis?.arrival`. -/
def progArrival (c : RawCheckpoint) : Option ℤ := c.prognosis.bind RawPrognosis.arrival

/-- Embeds `prognosis?.platform || platform`. -/
def effPlatform (c : RawCheckpoint) : Option String :=
  (c.prognosis.bind RawPrognosis.platform) <|> c.platform

/-- The body of `normalizeLegs` for one section (src/api/transport.ts
lines 195-236). -/
def normalizeLeg (sec : RawSection) : Leg :=
  let delayMinutes : Option ℤ :=
    match progDeparture sec.departure, sec.departure.departure with
    | some actual, some planned => some (jsRound (((actual - planned : ℤ) : ℚ) / 60000))
    | _, _ => none
  let fromActual := progDeparture sec.departure
  let toActual := progArrival sec.arrival
  { isWalk := sec.isWalk
    line :=
      if sec.isWalk = false && sec.hasJourney then
        sec.journeyName <|> sec.journeyCategory
      else none
    fromStop :=
      { name := sec.departure.stationName
        timePlanned := sec.departure.departure
        timeActual :=
          match fromActual with
          | some a => if sec.departure.departure == some a then none else some a
          | none => none
        platform := effPlatform sec.departure }
    toStop :=
      { name := sec.arrival.stationName
        timePlanned := sec.arrival.arrival
        timeActual :=
          match toActual with
          | some a => if sec.arrival.arrival == some a then none else some a
          | none => none
        platform := effPlatform sec.arrival }
    delayMinutes :=
      match delayMinutes with
      | some d => if d != 0 && decide (0 < d) then some d else none
      | none => none }

/-- Embeds `normalizeLegs` (line 194): `sections.map(...)`. -/
def normalizeLegs (sections : List RawSection) : List Leg := sections.map normalizeLeg

/-- The fields of a raw provider connection that tag assignment reads
(`TransportConnection`, lines 93-99). -/
structure RawConnection where
  duration : Option String
  transfers : ℤ
deriving Repr, DecidableEq

/-- The running minimum of the first pass of `findConnections` (lines
146-153): `acc` starts at `Infinity`, so the fold computes the minimum of
the list. -/
def minOf {α : Type} [LinearOrder α] : List α → Option α
  | [] => none
  | x :: xs =>
    match minOf xs with
    | none => some x
    | some m => some (min x m)

/-- Embeds `fastestDuration` across the batch. -/
def batchFastest (conns : List RawConnection) : Option ℕ :=
  minOf (conns.map (fun c => parseDuration c.duration))

/-- Embeds `fewestTransfers` across the batch. -/
def batchFewest (conns : List RawConnection) : Option ℤ :=
  minOf (conns.map RawConnection.transfers)

/-- The tag pushes of lines 157-160 for the connection at index `i`. -/
def tagsFor (fastest : Option ℕ) (fewest : Option ℤ) (i : ℕ) (c : RawConnection) : List String :=
  (if fastest = some (parseDuration c.duration) then ["fastest"] else []) ++
    (if fewest = some c.transfers then ["fewest transfers"] else []) ++
      (if i = 0 then ["recommended"] else [])

/-- The tag assignment of `findConnections` (src/api/transport.ts lines
146-160): the batch-level minima of the first pass feed the per-connection
tag pushes of the second pass, in provider order. -/
def connectionTags (conns : List RawConnection) : List (List String) :=
  (conns.enum).map (fun p => tagsFor (batchFastest conns) (batchFewest conns) p.1 p.2)

/-- The status classification of `checkDisruptions` (src/api/transport.ts
lines 302-306). -/
def checkStatus (cancelledOrMissing : ℕ) (maxDelay : ℤ) (delayedCount totalChecked : ℕ) :
    String :=
  if 2 ≤ cancelledOrMissing ∨ 30 < maxDelay then "disrupted"
  else if 15 < maxDelay ∨ (totalChecked : ℚ) * 0.5 < (delayedCount : ℚ) then "major_delays"
  else if 5 < maxDelay ∨ 0 < delayedCount then "minor_delays"
  else "normal"

/-! ### Compositional views of the accumulated reliability penalty -/

/-- Consecutive leg pairs: the iteration space of the transfer loop. -/
def legPairs : List Leg → List (Leg × Leg)
  | l :: l' :: rest => (l, l') :: legPairs (l' :: rest)
  | [] => []
  | [_] => []

/-- Sum of the margin-bucket penalties over all internal transfers. -/
def marginSum (legs : List Leg) : ℚ :=
  ((legPairs legs).map (fun p => marginPenalty (legMargin p.1 p.2))).sum

/-- Number of internal transfers whose transfer station is a recognized
big station. -/
def bigCount (legs : List Leg) : ℕ :=
  ((legPairs legs).filter (fun p => isBigStation p.1.toStop.name)).length

/-- The transfer-count penalty `0.12 × transfers` of lines 48-57 (0 when
there is at most one leg). -/
def transfersBase (legs : List Leg) : ℚ :=
  if 0 < (legs.length : ℤ) - 1 then 0.12 * (((legs.length : ℤ) - 1 : ℤ) : ℚ) else 0

/-- The peak-time penalty term of lines 114-122. -/
def peakTerm (t : LocalTime) : ℚ := if isPeakTime t then 0.08 else 0

/-- Number of legs passing the live-delay test `delayMinutes > 3`. -/
def delayedCount (legs : List Leg) : ℕ := (legs.filter legDelayed).length

/-- Number of reason entries carrying a given code. -/
def countCode (rs : List Reason) (c : String) : ℕ :=
  (rs.filter (fun r => r.code == c)).length

/-- Modelled from the spec sentence for C1 — "If the transfer station is a
recognized big station AND there is at least one transfer overall, add a
flat 0.08 penalty ... deduplicated (added at most once per connection
regardless of how many big-station transfers occur)": the total penalty
with the big-station term contributing at most once, all other terms as
the code computes them. -/
def specBigStationOncePenalty (legs : List Leg) (t : LocalTime) : ℚ :=
  transfersBase legs + marginSum legs + (if 0 < bigCount legs then (0.08 : ℚ) else 0) +
    peakTerm t + (0.05 : ℚ) * (delayedCount legs : ℚ)

/-- Modelled from the spec sentence for C2 — "Live-delay penalty: 0.05,
added once (deduplicated by reason code) if ANY leg has delayMinutes > 3":
the total penalty with the live-delay term contributing at most once, all
other terms as the code computes them. -/
def specDelayOncePenalty (legs : List Leg) (t : LocalTime) : ℚ :=
  transfersBase legs + marginSum legs + (0.08 : ℚ) * (bigCount legs : ℚ) + peakTerm t +
    (if 0 < delayedCount legs then (0.05 : ℚ) else 0)

/-- Concrete three-leg connection with internal transfers at Bern and
Luzern (both recognized big stations), 10-minute margins, no delays:
evaluation input for the big-station deduplication question. -/
def c1Legs : List Leg :=
  [⟨false, none, ⟨"A", some 0, none, none⟩, ⟨"Bern", some 1000000, none, none⟩, none⟩,
   ⟨false, none, ⟨"Bern", some 1600000, none, none⟩, ⟨"Luzern", some 3000000, none, none⟩, none⟩,
   ⟨false, none, ⟨"Luzern", some 3600000, none, none⟩, ⟨"B", some 5000000, none, none⟩, none⟩]

/-- Concrete two-leg connection whose two legs each carry a 5-minute live
delay, 10-minute margin, no big stations: evaluation input for the
live-delay deduplication question. -/
def c2Legs : List Leg :=
  [⟨false, none, ⟨"A", some 0, none, none⟩, ⟨"Q", some 1000000, none, none⟩, some 5⟩,
   ⟨false, none, ⟨"Q", some 1600000, none, none⟩, ⟨"B", some 3000000, none, none⟩, some 5⟩]

/-- Concrete two-leg connection realising the spec example
"legs [08:00 → 08:40 (planned = actual), 08:46 → 09:10]": times in ms with
08:00 at 0, arrival 08:40 at 2400000, next departure 08:46 at 2760000
(margin 6 minutes), transfer station "X" (not a big station). -/
def c4Legs : List Leg :=
  [⟨false, none, ⟨"A", some 0, none, none⟩, ⟨"X", some 2400000, none, none⟩, none⟩,
   ⟨false, none, ⟨"X", some 2760000, none, none⟩, ⟨"B", some 4200000, none, none⟩, none⟩]

/-- A Saturday-noon departure: never peak time. -/
def satNoon : LocalTime := ⟨6, 12, 0⟩

/-- A weather sample whose only triggering condition is `rain`
(precipitation 3 mm, mild temperature, no wind). -/
def rainA : WeatherSample := ⟨"A", 10, 3, 0, 0, 0⟩

/-- A second sample triggering only `rain`, at another station. -/
def rainB : WeatherSample := ⟨"B", 10, 3, 0, 0, 0⟩

/-- A raw section whose live departure is 2 minutes after the scheduled
one: witness input for the delay-propagation characterization. -/
def lateSec : RawSection :=
  ⟨true, none, none, false,
   ⟨"A", none, some 0, none, some ⟨none, some 120000, none⟩⟩,
   ⟨"B", some 600000, none, none, none⟩⟩

/-- A raw section whose live departure is 2 minutes before the scheduled
one: witness input for "actual at or before planned never carries
delayMinutes". -/
def earlySec : RawSection :=
  ⟨true, none, none, false,
   ⟨"A", none, some 120000, none, some ⟨none, some 0, none⟩⟩,
   ⟨"B", some 600000, none, none, none⟩⟩

/-- A two-connection batch for the tag-assignment witness: the second is
strictly fastest, the first has strictly fewest transfers. -/
def twoConns : List RawConnection :=
  [⟨some ("00:30:00"), 1⟩, ⟨some ("00:20:00"), 2⟩]

/-- The penalty component of one transfer-loop iteration. -/
lemma transferStep_fst (tr : ℤ) (acc : ℚ × List Reason × List TransferRisk) (l l' : Leg) :
    (transferStep tr acc l l').1 =
      acc.1 + (if isBigStation l.toStop.name && decide (0 < tr) then (0.08 : ℚ) else 0) +
        marginPenalty (legMargin l l') := by
  simp only [transferStep]
  split <;> ring

/-- The penalty component of the whole transfer loop. -/
lemma transferLoop_fst (tr : ℤ) :
    ∀ (legs : List Leg) (acc : ℚ × List Reason × List TransferRisk),
      (transferLoop tr legs acc).1 =
        acc.1 + marginSum legs +
          (if 0 < tr then (0.08 : ℚ) * (bigCount legs : ℚ) else 0)
  | [], acc => by simp [transferLoop, marginSum, bigCount, legPairs]
  | [l], acc => by simp [transferLoop, marginSum, bigCount, legPairs]
  | l :: l' :: rest, acc => by
    rw [transferLoop, transferLoop_fst tr (l' :: rest), transferStep_fst]
    simp only [marginSum, bigCount, legPairs, List.map_cons, List.sum_cons, List.filter_cons]
    by_cases hb : isBigStation l.toStop.name <;> by_cases ht : 0 < tr <;>
      simp [hb, ht, marginSum, bigCount] <;> ring

/-- The penalty component of the live-delay loop. -/
lemma delayLoop_fst :
    ∀ (legs : List Leg) (acc : ℚ × List Reason),
      (delayLoop legs acc).1 = acc.1 + (0.05 : ℚ) * (delayedCount legs : ℚ)
  | [], acc => by simp [delayLoop, delayedCount]
  | l :: rest, acc => by
    rw [delayLoop]
    by_cases hd : legDelayed l
    · rw [if_pos hd, delayLoop_fst rest]
      simp only [delayedCount, List.filter_cons, hd, if_true, List.length_cons]
      push_cast
      ring
    · rw [if_neg hd, delayLoop_fst rest]
      simp [delayedCount, List.filter_cons, hd]

/-- A list with at most one element has no internal transfer pair. -/
lemma legPairs_nil_of_short (legs : List Leg) (h : legs.length ≤ 1) : legPairs legs = [] := by
  match legs with
  | [] => rfl
  | [_] => rfl
  | _ :: _ :: _ => simp at h

/-- A short legs list contributes no big-station term. -/
lemma bigCount_zero_of_short (legs : List Leg) (h : ¬ 0 < (legs.length : ℤ) - 1) :
    (bigCount legs : ℚ) = 0 := by
  have hlen : legs.length ≤ 1 := by omega
  simp [bigCount, legPairs_nil_of_short legs hlen]

/-- Decomposition of the accumulated penalty of `calculateReliability`
into its five independent sources: the transfer-count base, the
margin-bucket penalties, 0.08 per big-station transfer, the peak-time
penalty, and 0.05 per delayed leg. -/
theorem penaltyTotal_decomp (legs : List Leg) (t : LocalTime) :
    penaltyTotal legs t =
      transfersBase legs + marginSum legs + (0.08 : ℚ) * (bigCount legs : ℚ) +
        peakTerm t + (0.05 : ℚ) * (delayedCount legs : ℚ) := by
  by_cases hn : 0 < (legs.length : ℤ) - 1 <;> by_cases hp : isPeakTime t
  · simp only [penaltyTotal, reliabilityTotals, hp, hn, if_true, if_false, Bool.false_eq_true]
    rw [delayLoop_fst, transferLoop_fst]
    simp only [transfersBase, peakTerm, hp, hn, if_true, if_false, Bool.false_eq_true]
  · simp only [penaltyTotal, reliabilityTotals, hp, hn, if_true, if_false, Bool.false_eq_true]
    rw [delayLoop_fst, transferLoop_fst]
    simp only [transfersBase, peakTerm, hp, hn, if_true, if_false, Bool.false_eq_true]
    push_cast
    ring
  · simp only [penaltyTotal, reliabilityTotals, hp, hn, if_true, if_false, Bool.false_eq_true]
    rw [delayLoop_fst, transferLoop_fst]
    simp only [transfersBase, peakTerm, hp, hn, if_true, if_false, Bool.false_eq_true]
    all_goals (rw [bigCount_zero_of_short legs hn]; ring)
  · simp only [penaltyTotal, reliabilityTotals, hp, hn, if_true, if_false, Bool.false_eq_true]
    rw [delayLoop_fst, transferLoop_fst]
    simp only [transfersBase, peakTerm, hp, hn, if_true, if_false, Bool.false_eq_true]
    all_goals (rw [bigCount_zero_of_short legs hn]; ring)

/-! ### Deduplication of reason entries -/

/-- Appending a reason with a different code keeps the count. -/
lemma countCode_append (rs : List Reason) (r : Reason) (c : String) :
    countCode (rs ++ [r]) c = countCode rs c + (if r.code == c then 1 else 0) := by
  simp only [countCode, List.filter_append, List.length_append, List.filter_cons,
    List.filter_nil]
  split <;> simp

/-- A list with no entry of code `c` has count 0 for `c`. -/
lemma countCode_eq_zero_of_not_any (rs : List Reason) (c : String)
    (h : rs.any (fun r => r.code == c) = false) : countCode rs c = 0 := by
  rw [List.any_eq_false] at h
  simp only [countCode]
  rw [List.filter_eq_nil_iff.mpr h]
  rfl

/-- The guarded push keeps every per-code count at most 1. -/
lemma countCode_pushIfNew_le (rs : List Reason) (c0 lb : String) (p : ℚ) (c : String)
    (h : countCode rs c ≤ 1) : countCode (pushIfNew rs c0 lb p) c ≤ 1 := by
  unfold pushIfNew
  split
  · exact h
  · rw [countCode_append]
    rename_i ha
    by_cases hc : c0 = c
    · subst hc
      rw [Bool.not_eq_true] at ha
      simp [countCode_eq_zero_of_not_any rs c0 ha]
    · simp [hc]
      exact h

/-- The margin-bucket pushes do not change the count of any code other
than `tight_transfer` and `short_transfer`. -/
lemma marginReasons_count (rs : List Reason) (st : String) (mm : Option ℤ) (c : String)
    (hc1 : ("tight_transfer" == c) = false) (hc2 : ("short_transfer" == c) = false) :
    countCode (marginReasons rs st mm) c = countCode rs c := by
  match mm with
  | none => rfl
  | some m =>
    simp only [marginReasons]
    split
    · rw [countCode_append]
      simp [hc1]
    · split
      · rw [countCode_append]
        simp [hc2]
      · rfl

/-- One transfer-loop iteration keeps the big-station count at most 1
(the unguarded pushes carry the codes `tight_transfer` / `short_transfer`). -/
lemma transferStep_bigCode (tr : ℤ) (acc : ℚ × List Reason × List TransferRisk) (l l' : Leg)
    (h : countCode acc.2.1 "big_station" ≤ 1) :
    countCode (transferStep tr acc l l').2.1 "big_station" ≤ 1 := by
  have hr1 : countCode (marginReasons acc.2.1 l.toStop.name (legMargin l l')) "big_station" ≤ 1 := by
    rw [marginReasons_count _ _ _ _ (by decide) (by decide)]
    exact h
  simp only [transferStep]
  split
  · exact countCode_pushIfNew_le _ _ _ _ _ hr1
  · exact hr1

/-- Pushing a different code leaves a count unchanged. -/
lemma countCode_pushIfNew_ne (rs : List Reason) (c0 lb : String) (p : ℚ) (c : String)
    (hc : (c0 == c) = false) :
    countCode (pushIfNew rs c0 lb p) c = countCode rs c := by
  unfold pushIfNew
  split
  · rfl
  · rw [countCode_append]
    simp [hc]

/-- The whole transfer loop keeps the big-station count at most 1. -/
lemma transferLoop_bigCode (tr : ℤ) :
    ∀ (legs : List Leg) (acc : ℚ × List Reason × List TransferRisk),
      countCode acc.2.1 "big_station" ≤ 1 →
      countCode (transferLoop tr legs acc).2.1 "big_station" ≤ 1
  | [], _, h => h
  | [_], _, h => h
  | l :: l' :: rest, acc, h =>
    transferLoop_bigCode tr (l' :: rest) _ (transferStep_bigCode tr acc l l' h)

/-- One transfer-loop iteration does not touch the count of codes other
than its three own ones. -/
lemma transferStep_otherCode (tr : ℤ) (acc : ℚ × List Reason × List TransferRisk)
    (l l' : Leg) (c : String) (h1 : ("tight_transfer" == c) = false)
    (h2 : ("short_transfer" == c) = false) (h3 : ("big_station" == c) = false) :
    countCode (transferStep tr acc l l').2.1 c = countCode acc.2.1 c := by
  simp only [transferStep]
  split
  · rw [countCode_pushIfNew_ne _ _ _ _ _ h3, marginReasons_count _ _ _ _ h1 h2]
  · rw [marginReasons_count _ _ _ _ h1 h2]

/-- The whole transfer loop does not touch the count of foreign codes. -/
lemma transferLoop_otherCode (tr : ℤ) (c : String) (h1 : ("tight_transfer" == c) = false)
    (h2 : ("short_transfer" == c) = false) (h3 : ("big_station" == c) = false) :
    ∀ (legs : List Leg) (acc : ℚ × List Reason × List TransferRisk),
      countCode (transferLoop tr legs acc).2.1 c = countCode acc.2.1 c
  | [], _ => rfl
  | [_], _ => rfl
  | l :: l' :: rest, acc => by
    rw [transferLoop, transferLoop_otherCode tr c h1 h2 h3 (l' :: rest),
      transferStep_otherCode tr acc l l' c h1 h2 h3]

/-- The delay loop keeps the current-delay count at most 1. -/
lemma delayLoop_delayCode :
    ∀ (legs : List Leg) (acc : ℚ × List Reason),
      countCode acc.2 "current_delay" ≤ 1 →
      countCode (delayLoop legs acc).2 "current_delay" ≤ 1
  | [], _, h => h
  | l :: rest, acc, h => by
    rw [delayLoop]
    split
    · exact delayLoop_delayCode rest _ (countCode_pushIfNew_le _ _ _ _ _ h)
    · exact delayLoop_delayCode rest _ h

/-- The delay loop does not touch the count of foreign codes. -/
lemma delayLoop_otherCode (c : String) (hc : ("current_delay" == c) = false) :
    ∀ (legs : List Leg) (acc : ℚ × List Reason),
      countCode (delayLoop legs acc).2 c = countCode acc.2 c
  | [], _ => rfl
  | l :: rest, acc => by
    rw [delayLoop]
    split
    · rw [delayLoop_otherCode c hc rest, countCode_pushIfNew_ne _ _ _ _ _ hc]
    · rw [delayLoop_otherCode c hc rest]

/-- The accumulated reasons list of `calculateReliability` carries at most
one `big_station` entry. -/
lemma bigStation_reason_once (legs : List Leg) (t : LocalTime) :
    countCode (reliabilityTotals legs t).2.1 "big_station" ≤ 1 := by
  have hinit : ∀ rs : List Reason,
      (∀ r ∈ rs, (r.code == "big_station") = false) → countCode rs "big_station" = 0 := by
    intro rs h
    apply countCode_eq_zero_of_not_any
    rw [List.any_eq_false]
    intro r hr
    simp [h r hr]
  simp only [reliabilityTotals]
  rw [delayLoop_otherCode _ (by decide)]
  by_cases hp : isPeakTime t <;>
    simp only [hp, if_true, if_false, Bool.false_eq_true] <;>
    by_cases hn : 0 < (legs.length : ℤ) - 1 <;>
    simp only [hn, if_true, if_false]
  · rw [countCode_append]
    exact transferLoop_bigCode _ legs _ (by simp [countCode])
  · rw [countCode_append]
    exact transferLoop_bigCode _ legs _ (by simp [countCode])
  · exact transferLoop_bigCode _ legs _ (by simp [countCode])
  · exact transferLoop_bigCode _ legs _ (by simp [countCode])

/-- The accumulated reasons list of `calculateReliability` carries at most
one `current_delay` entry. -/
lemma currentDelay_reason_once (legs : List Leg) (t : LocalTime) :
    countCode (reliabilityTotals legs t).2.1 "current_delay" ≤ 1 := by
  simp only [reliabilityTotals]
  apply delayLoop_delayCode
  by_cases hp : isPeakTime t <;>
    simp only [hp, if_true, if_false, Bool.false_eq_true] <;>
    by_cases hn : 0 < (legs.length : ℤ) - 1 <;>
    simp only [hn, if_true, if_false] <;>
    first
    | (rw [countCode_append, transferLoop_otherCode _ _ (by decide) (by decide) (by decide)]
       simp [countCode])
    | (rw [transferLoop_otherCode _ _ (by decide) (by decide) (by decide)]
       simp [countCode])

/-- The penalty component of one weather aggregation iteration. -/
lemma weatherStep_fst (acc : ℚ × List Reason) (s : WeatherSample) :
    (weatherStep acc s).1 = acc.1 + samplePenalty s := by
  simp only [weatherStep, samplePenalty, Bool.and_eq_true, decide_eq_true_eq]
  split_ifs <;> ring

/-- The penalty component of the weather aggregation fold. -/
lemma weatherFold_fst :
    ∀ (samples : List WeatherSample) (acc : ℚ × List Reason),
      (samples.foldl weatherStep acc).1 = acc.1 + (samples.map samplePenalty).sum
  | [], acc => by simp
  | s :: rest, acc => by
    rw [List.foldl_cons, weatherFold_fst rest, weatherStep_fst]
    simp only [List.map_cons, List.sum_cons]
    ring

/-- Per-sample weather penalties are nonnegative. -/
lemma samplePenalty_nonneg (s : WeatherSample) : 0 ≤ samplePenalty s := by
  simp only [samplePenalty]
  split_ifs <;> norm_num

/-- One weather aggregation iteration keeps every per-code count at most 1
(every one of its pushes is guarded). -/
lemma weatherStep_count (acc : ℚ × List Reason) (s : WeatherSample) (c : String)
    (h : countCode acc.2 c ≤ 1) : countCode (weatherStep acc s).2 c ≤ 1 := by
  simp only [weatherStep]
  split_ifs <;> (repeat apply countCode_pushIfNew_le) <;> exact h

/-- The weather aggregation fold keeps every per-code count at most 1. -/
lemma weatherFold_count :
    ∀ (samples : List WeatherSample) (acc : ℚ × List Reason) (c : String),
      countCode acc.2 c ≤ 1 → countCode ((samples.foldl weatherStep acc)).2 c ≤ 1
  | [], _, _, h => h
  | s :: rest, acc, c, h => weatherFold_count rest _ c (weatherStep_count acc s c h)


/-! ### The claims -/

/-- C1 (corrected): the flat 0.08 big-station penalty is not deduplicated
in the total — for every legs list and departure time the accumulated
penalty contains `0.08 × (number of big-station internal transfers)`;
only the emitted `big_station` reason entry is added at most once. -/
theorem C1_thm (legs : List Leg) (t : LocalTime) :
    penaltyTotal legs t =
      (transfersBase legs + marginSum legs + peakTerm t +
        (0.05 : ℚ) * (delayedCount legs : ℚ)) + (0.08 : ℚ) * (bigCount legs : ℚ) ∧
    countCode (reliabilityTotals legs t).2.1 "big_station" ≤ 1 := by
  refine ⟨?_, bigStation_reason_once legs t⟩
  rw [penaltyTotal_decomp]
  ring

/-- C1 counterexample: a three-leg connection with big-station transfers
at Bern and Luzern (wide margins, no delays, off-peak) accumulates
0.24 + 2 × 0.08 = 0.40, while the claimed once-per-connection big-station
penalty would give 0.32. -/
theorem C1_cex :
    penaltyTotal c1Legs satNoon = 0.40 ∧
    specBigStationOncePenalty c1Legs satNoon = 0.32 ∧
    penaltyTotal c1Legs satNoon ≠ specBigStationOncePenalty c1Legs satNoon := by
  have hbern : isBigStation "Bern" = true := by decide
  have hluz : isBigStation "Luzern" = true := by decide
  have h1 : penaltyTotal c1Legs satNoon = 0.40 := by
    norm_num [penaltyTotal, reliabilityTotals, transferLoop, transferStep, delayLoop,
      marginReasons, pushIfNew, legMargin, effArrival, jsRound, marginPenalty, marginRisk,
      isPeakTime, legDelayed, c1Legs, satNoon, hbern, hluz]
  have h2 : specBigStationOncePenalty c1Legs satNoon = 0.32 := by
    norm_num [specBigStationOncePenalty, transfersBase, marginSum, bigCount, legPairs,
      legMargin, effArrival, jsRound, marginPenalty, peakTerm, isPeakTime, delayedCount,
      legDelayed, c1Legs, satNoon, hbern, hluz]
  refine ⟨h1, h2, ?_⟩
  rw [h1, h2]
  norm_num

/-- C2 (corrected): the 0.05 live-delay penalty is accumulated once per
leg with `delayMinutes > 3` — the total contains
`0.05 × (number of such legs)`, not a single deduplicated 0.05; only the
`current_delay` reason entry is added at most once. -/
theorem C2_thm (legs : List Leg) (t : LocalTime) :
    penaltyTotal legs t =
      (transfersBase legs + marginSum legs + (0.08 : ℚ) * (bigCount legs : ℚ) + peakTerm t) +
        (0.05 : ℚ) * (delayedCount legs : ℚ) ∧
    countCode (reliabilityTotals legs t).2.1 "current_delay" ≤ 1 :=
  ⟨by rw [penaltyTotal_decomp], currentDelay_reason_once legs t⟩

/-- C2 counterexample: a two-leg connection whose both legs carry a
5-minute delay (wide margin, no big stations, off-peak) accumulates
0.12 + 2 × 0.05 = 0.22, while the claimed once-per-connection live-delay
penalty would give 0.17. -/
theorem C2_cex :
    penaltyTotal c2Legs satNoon = 0.22 ∧
    specDelayOncePenalty c2Legs satNoon = 0.17 ∧
    penaltyTotal c2Legs satNoon ≠ specDelayOncePenalty c2Legs satNoon := by
  have hq : isBigStation "Q" = false := by decide
  have h1 : penaltyTotal c2Legs satNoon = 0.22 := by
    norm_num [penaltyTotal, reliabilityTotals, transferLoop, transferStep, delayLoop,
      marginReasons, pushIfNew, legMargin, effArrival, jsRound, marginPenalty, marginRisk,
      isPeakTime, legDelayed, c2Legs, satNoon, hq]
  have h2 : specDelayOncePenalty c2Legs satNoon = 0.17 := by
    norm_num [specDelayOncePenalty, transfersBase, marginSum, bigCount, legPairs,
      legMargin, effArrival, jsRound, marginPenalty, peakTerm, isPeakTime, delayedCount,
      legDelayed, c2Legs, satNoon, hq]
  refine ⟨h1, h2, ?_⟩
  rw [h1, h2]
  norm_num

/-- C3 (corrected): in `getWeatherInsights` every triggering sample adds
its code's penalty (the pre-cap total is the sum of per-sample
penalties), the resulting penalty is capped at 0.35 (and nonnegative),
and it is only the reasons list that is deduplicated per code. -/
theorem C3_thm (samples : List WeatherSample) :
    (getWeatherInsights samples).penalty = min 0.35 ((samples.map samplePenalty).sum) ∧
    (getWeatherInsights samples).penalty ≤ 0.35 ∧
    0 ≤ (getWeatherInsights samples).penalty ∧
    (∀ c : String, countCode (samples.foldl weatherStep (0, [])).2 c ≤ 1) := by
  have hpen : (getWeatherInsights samples).penalty =
      min 0.35 ((samples.map samplePenalty).sum) := by
    simp only [getWeatherInsights]
    rw [weatherFold_fst]
    norm_num
  refine ⟨hpen, ?_, ?_, ?_⟩
  · rw [hpen]
    exact min_le_left _ _
  · rw [hpen]
    refine le_min (by norm_num) ?_
    refine List.sum_nonneg ?_
    intro x hx
    obtain ⟨s, _, rfl⟩ := List.mem_map.mp hx
    exact samplePenalty_nonneg s
  · intro c
    exact weatherFold_count samples _ c (by simp [countCode])

/-- C3 counterexample: two samples that each trigger only the `rain` code
yield a total penalty of 0.12, while the claimed once-per-code
contribution would give 0.06. -/
theorem C3_cex :
    (getWeatherInsights [rainA, rainB]).penalty = 0.12 ∧
    specWeatherPenaltyOnce [rainA, rainB] = 0.06 ∧
    (getWeatherInsights [rainA, rainB]).penalty ≠ specWeatherPenaltyOnce [rainA, rainB] := by
  have h1 : (getWeatherInsights [rainA, rainB]).penalty = 0.12 := by
    norm_num [getWeatherInsights, weatherStep, pushIfNew, rainA, rainB]
  have h2 : specWeatherPenaltyOnce [rainA, rainB] = 0.06 := by
    norm_num [specWeatherPenaltyOnce, rainA, rainB]
  refine ⟨h1, h2, ?_⟩
  rw [h1, h2]
  norm_num

/-- C4 (corrected): for the spec's example connection (arrival 08:40 with
planned = actual, next planned departure 08:46) the computed transfer
margin is 6 minutes, but a 6-minute margin falls in the `6 ≤ margin < 8`
bucket: the transfer is recorded with risk level "low", contributes a
silent penalty of 0.10 (total 0.12 + 0.10), and no `short_transfer`
reason is emitted. -/
theorem C4_thm :
    (calculateReliability c4Legs satNoon).transferRisks = [⟨"X", "X", some 6, "low", false⟩] ∧
    penaltyTotal c4Legs satNoon = 0.12 + 0.10 ∧
    marginPenalty (some 6) = 0.10 ∧
    ((calculateReliability c4Legs satNoon).reasons.map Reason.code) = ["transfers"] := by
  have hx : isBigStation "X" = false := by decide
  refine ⟨?_, ?_, by norm_num [marginPenalty], ?_⟩
  · norm_num [calculateReliability, reliabilityTotals, transferLoop, transferStep, delayLoop,
      marginReasons, pushIfNew, legMargin, effArrival, jsRound, marginPenalty, marginRisk,
      isPeakTime, legDelayed, c4Legs, satNoon, hx]
  · norm_num [penaltyTotal, reliabilityTotals, transferLoop, transferStep, delayLoop,
      marginReasons, pushIfNew, legMargin, effArrival, jsRound, marginPenalty, marginRisk,
      isPeakTime, legDelayed, c4Legs, satNoon, hx]
  · norm_num [calculateReliability, reliabilityTotals, transferLoop, transferStep, delayLoop,
      marginReasons, pushIfNew, legMargin, effArrival, jsRound, marginPenalty, marginRisk,
      isPeakTime, legDelayed, c4Legs, satNoon, hx, List.insertionSort, List.orderedInsert]

/-- C4 counterexample: on that very connection the recorded risk level is
"low", not "medium"; no reason carries the `short_transfer` code; and the
total penalty is not the claimed 0.12 + 0.20. -/
theorem C4_cex :
    ((calculateReliability c4Legs satNoon).transferRisks.map TransferRisk.riskLevel = ["low"]) ∧
    ¬ ((calculateReliability c4Legs satNoon).transferRisks.map TransferRisk.riskLevel
        = ["medium"]) ∧
    ((calculateReliability c4Legs satNoon).reasons.all (fun r => r.code != "short_transfer")
        = true) ∧
    penaltyTotal c4Legs satNoon ≠ 0.12 + 0.20 := by
  have hx : isBigStation "X" = false := by decide
  have hrisks : (calculateReliability c4Legs satNoon).transferRisks
      = [⟨"X", "X", some 6, "low", false⟩] := by
    norm_num [calculateReliability, reliabilityTotals, transferLoop, transferStep, delayLoop,
      marginReasons, pushIfNew, legMargin, effArrival, jsRound, marginPenalty, marginRisk,
      isPeakTime, legDelayed, c4Legs, satNoon, hx]
  have hreasons : ((calculateReliability c4Legs satNoon).reasons.map Reason.code)
      = ["transfers"] := by
    norm_num [calculateReliability, reliabilityTotals, transferLoop, transferStep, delayLoop,
      marginReasons, pushIfNew, legMargin, effArrival, jsRound, marginPenalty, marginRisk,
      isPeakTime, legDelayed, c4Legs, satNoon, hx, List.insertionSort, List.orderedInsert]
  have hpen : penaltyTotal c4Legs satNoon = 0.12 + 0.10 := by
    norm_num [penaltyTotal, reliabilityTotals, transferLoop, transferStep, delayLoop,
      marginReasons, pushIfNew, legMargin, effArrival, jsRound, marginPenalty, marginRisk,
      isPeakTime, legDelayed, c4Legs, satNoon, hx]
  refine ⟨by rw [hrisks]; rfl, by rw [hrisks]; simp, ?_, by rw [hpen]; norm_num⟩
  rw [List.all_eq_true]
  intro r hr
  have hcode : r.code ∈ ["transfers"] := hreasons ▸ List.mem_map_of_mem Reason.code hr
  simp only [List.mem_singleton] at hcode
  simp [hcode]

/-- C5 (confirmed): the returned score is `clamp(1 − totalPenalty, 0, 1)`
and hence lies in [0, 1], and the level is "low" iff score ≥ 0.75,
"medium" iff 0.55 ≤ score < 0.75, and "high" iff score < 0.55. -/
theorem C5_thm (legs : List Leg) (t : LocalTime) :
    (calculateReliability legs t).score = max 0 (min 1 (1 - penaltyTotal legs t)) ∧
    0 ≤ (calculateReliability legs t).score ∧
    (calculateReliability legs t).score ≤ 1 ∧
    ((calculateReliability legs t).level = "low" ↔
      0.75 ≤ (calculateReliability legs t).score) ∧
    ((calculateReliability legs t).level = "medium" ↔
      0.55 ≤ (calculateReliability legs t).score ∧
        (calculateReliability legs t).score < 0.75) ∧
    ((calculateReliability legs t).level = "high" ↔
      (calculateReliability legs t).score < 0.55) := by
  refine ⟨rfl, le_max_left 0 _, max_le (by norm_num) (min_le_left _ _), ?_, ?_, ?_⟩
  · simp only [calculateReliability]
    split_ifs with h1 h2
    · exact iff_of_true rfl h1
    · exact iff_of_false (by decide) h1
    · exact iff_of_false (by decide) h1
  · simp only [calculateReliability]
    split_ifs with h1 h2
    · exact iff_of_false (by decide) (fun h => absurd h.2 (not_lt.mpr h1))
    · exact iff_of_true rfl ⟨h2, not_le.mp h1⟩
    · exact iff_of_false (by decide) (fun h => absurd h.1 h2)
  · simp only [calculateReliability]
    split_ifs with h1 h2
    · exact iff_of_false (by decide) (not_lt.mpr (le_trans (by norm_num) h1))
    · exact iff_of_false (by decide) (not_lt.mpr h2)
    · exact iff_of_true rfl (not_le.mp h2)

/-- C6 (confirmed): a normalized leg carries `delayMinutes = d` iff the
raw section has both a prognosis departure and a scheduled departure and
`d = round((actual − planned) / 60000)` is strictly positive; the
characterization reads only the departure checkpoint, and a live
departure at or before the planned one never yields `delayMinutes`;
`normalizeLegs` is the per-section map of this normalization. -/
theorem C6_thm :
    (∀ (sec : RawSection) (d : ℤ),
      ((normalizeLeg sec).delayMinutes = some d ↔
        ∃ a p : ℤ, progDeparture sec.departure = some a ∧
          sec.departure.departure = some p ∧
          d = jsRound (((a - p : ℤ) : ℚ) / 60000) ∧ 0 < d)) ∧
    (∀ (sec : RawSection) (a p : ℤ),
      progDeparture sec.departure = some a → sec.departure.departure = some p → a ≤ p →
        (normalizeLeg sec).delayMinutes = none) ∧
    (∀ secs : List RawSection, normalizeLegs secs = secs.map normalizeLeg) := by
  have hchar : ∀ (sec : RawSection), (normalizeLeg sec).delayMinutes =
      match progDeparture sec.departure, sec.departure.departure with
      | some a, some p =>
        if 0 < jsRound (((a - p : ℤ) : ℚ) / 60000) then
          some (jsRound (((a - p : ℤ) : ℚ) / 60000))
        else none
      | _, _ => none := by
    intro sec
    simp only [normalizeLeg]
    cases ha : progDeparture sec.departure <;> cases hp : sec.departure.departure <;>
      simp only []
    rename_i a p
    generalize jsRound (((a - p : ℤ) : ℚ) / 60000) = j
    by_cases hj : 0 < j
    · have hcond : (j != 0 && decide (0 < j)) = true := by
        simp only [Bool.and_eq_true, bne_iff_ne, ne_eq, decide_eq_true_eq]
        exact ⟨by omega, hj⟩
      rw [if_pos hcond, if_pos hj]
    · have hcond : ¬ ((j != 0 && decide (0 < j)) = true) := by
        simp only [Bool.and_eq_true, bne_iff_ne, ne_eq, decide_eq_true_eq]
        rintro ⟨-, h⟩
        exact hj h
      rw [if_neg hcond, if_neg hj]
  refine ⟨?_, ?_, fun secs => rfl⟩
  · intro sec d
    rw [hchar sec]
    cases ha : progDeparture sec.departure <;> cases hp : sec.departure.departure <;>
      simp only []
    · simp
    · simp
    · simp
    · rename_i a p
      constructor
      · intro h
        split at h
        · rename_i hpos
          injection h with h
          subst h
          exact ⟨a, p, rfl, rfl, rfl, hpos⟩
        · exact absurd h (by simp)
      · rintro ⟨a', p', ha', hp', rfl, hdpos⟩
        injection ha' with ha'
        injection hp' with hp'
        subst ha'
        subst hp'
        rw [if_pos hdpos]
  · intro sec a p ha hp hle
    rw [hchar sec, ha, hp]
    have h1 : ((a - p : ℤ) : ℚ) ≤ 0 := by exact_mod_cast sub_nonpos.mpr hle
    have hq : (((a - p : ℤ) : ℚ) / 60000) ≤ 0 := div_nonpos_of_nonpos_of_nonneg h1 (by norm_num)
    have hfl : jsRound (((a - p : ℤ) : ℚ) / 60000) ≤ 0 := by
      have hlt : jsRound (((a - p : ℤ) : ℚ) / 60000) < 1 := by
        rw [jsRound, Int.floor_lt]
        push_cast at hq ⊢
        linarith
      omega
    show (if 0 < jsRound (((a - p : ℤ) : ℚ) / 60000) then
        some (jsRound (((a - p : ℤ) : ℚ) / 60000)) else none) = none
    exact if_neg (by omega)

/-- C6 witness: a section 2 minutes early carries no delay, one 2 minutes
late carries `delayMinutes = 2`. -/
theorem C6_witness :
    (normalizeLeg earlySec).delayMinutes = none ∧
    (normalizeLeg lateSec).delayMinutes = some 2 :=
  ⟨C6_thm.2.1 earlySec 0 120000 rfl rfl (by norm_num),
   (C6_thm.1 lateSec 2).mpr ⟨120000, 0, rfl, rfl, by norm_num [jsRound], by norm_num⟩⟩

/-- C7 (confirmed): `parseDuration` is total (never throws),
`parseDuration "01:02:03" = 62` and `parseDuration "1d02:00:00" = 1560`
(days × 1440 + hours × 60 + minutes, seconds ignored), an absent input
yields 0, and every string the regex search does not match yields 0. -/
theorem C7_thm :
    parseDuration (some ("01:02:03")) = 62 ∧
    parseDuration (some ("1d02:00:00")) = 1560 ∧
    parseDuration none = 0 ∧
    (∀ s : String, searchDuration s.data = none → parseDuration (some s) = 0) := by
  refine ⟨by decide, by decide, rfl, ?_⟩
  intro s h
  by_cases he : s.isEmpty <;> simp [parseDuration, he, h]

/-- C7 witness: an unmatchable string yields 0. -/
theorem C7_witness : parseDuration (some ("transit")) = 0 :=
  C7_thm.2.2.2 ("transit") (by decide)

/-- C9 (confirmed): the disruption status is decided by first match in
the precedence order disrupted → major_delays → minor_delays → normal
with exactly the stated conditions, and `maxDelay = 35` with
`cancelledOrMissing = 0` yields "disrupted" for every tally. -/
theorem C9_thm (com : ℕ) (md : ℤ) (dc tc : ℕ) :
    (checkStatus com md dc tc = "disrupted" ↔ (2 ≤ com ∨ 30 < md)) ∧
    (checkStatus com md dc tc = "major_delays" ↔
      (¬ (2 ≤ com ∨ 30 < md) ∧ (15 < md ∨ (tc : ℚ) * 0.5 < (dc : ℚ)))) ∧
    (checkStatus com md dc tc = "minor_delays" ↔
      (¬ (2 ≤ com ∨ 30 < md) ∧ ¬ (15 < md ∨ (tc : ℚ) * 0.5 < (dc : ℚ)) ∧
        (5 < md ∨ 0 < dc))) ∧
    (checkStatus com md dc tc = "normal" ↔
      (¬ (2 ≤ com ∨ 30 < md) ∧ ¬ (15 < md ∨ (tc : ℚ) * 0.5 < (dc : ℚ)) ∧
        ¬ (5 < md ∨ 0 < dc))) ∧
    checkStatus 0 35 dc tc = "disrupted" := by
  refine ⟨?_, ?_, ?_, ?_, by norm_num [checkStatus]⟩ <;>
    · simp only [checkStatus]
      split_ifs with h1 h2 h3 <;> simp_all

/-- C10 (confirmed): a single-leg connection has no transfer risks, its
accumulated penalty is at most 0.08 + 0.05 = 0.13, hence its score is at
least 0.87 and its risk level is "low". -/
theorem C10_thm (l : Leg) (t : LocalTime) :
    (calculateReliability [l] t).transferRisks = [] ∧
    penaltyTotal [l] t ≤ 0.13 ∧
    0.87 ≤ (calculateReliability [l] t).score ∧
    (calculateReliability [l] t).level = "low" := by
  have hzero : transfersBase [l] = 0 ∧ marginSum [l] = 0 ∧ bigCount [l] = 0 := by
    refine ⟨?_, by simp [marginSum, legPairs], by simp [bigCount, legPairs]⟩
    simp [transfersBase]
  have hdel : (delayedCount [l] : ℚ) ≤ 1 := by
    have : delayedCount [l] ≤ 1 := by
      simp only [delayedCount, List.filter]
      split <;> simp
    exact_mod_cast this
  have hdel0 : (0 : ℚ) ≤ (delayedCount [l] : ℚ) := by positivity
  have hpeak : 0 ≤ peakTerm t ∧ peakTerm t ≤ 0.08 := by
    unfold peakTerm
    split_ifs <;> norm_num
  have hub : penaltyTotal [l] t ≤ 0.13 := by
    rw [penaltyTotal_decomp, hzero.1, hzero.2.1, hzero.2.2]
    push_cast
    linarith [hpeak.1, hpeak.2, hdel, hdel0]
  have hlb : 0 ≤ penaltyTotal [l] t := by
    rw [penaltyTotal_decomp, hzero.1, hzero.2.1, hzero.2.2]
    push_cast
    linarith [hpeak.1, hdel0]
  have hscore : (calculateReliability [l] t).score = 1 - penaltyTotal [l] t := by
    show max 0 (min 1 (1 - penaltyTotal [l] t)) = 1 - penaltyTotal [l] t
    rw [min_eq_right (by linarith), max_eq_right (by linarith)]
  have hs87 : 0.87 ≤ (calculateReliability [l] t).score := by
    rw [hscore]
    linarith
  refine ⟨?_, hub, hs87, ?_⟩
  · by_cases hp : isPeakTime t <;>
      simp [calculateReliability, reliabilityTotals, transferLoop, hp]
  · show (if 0.75 ≤ (calculateReliability [l] t).score then "low"
      else if 0.55 ≤ (calculateReliability [l] t).score then "medium" else "high") = "low"
    rw [if_pos (by linarith)]

lemma minOf_mem {α : Type} [LinearOrder α] :
    ∀ (l : List α) (m : α), minOf l = some m → m ∈ l
  | [], m, h => by simp [minOf] at h
  | x :: xs, m, h => by
    rw [minOf] at h
    cases hxs : minOf xs with
    | none =>
      rw [hxs] at h
      injection h with h
      simp [h.symm]
    | some m' =>
      rw [hxs] at h
      injection h with h
      rcases min_cases x m' with ⟨he, _⟩ | ⟨he, _⟩
      · simp [← h, he]
      · have := minOf_mem xs m' hxs
        right
        rwa [← h, he]

lemma minOf_cons_isSome {α : Type} [LinearOrder α] (x : α) (xs : List α) :
    ∃ m, minOf (x :: xs) = some m := by
  rw [minOf]
  cases minOf xs <;> exact ⟨_, rfl⟩

lemma minOf_le {α : Type} [LinearOrder α] :
    ∀ (l : List α) (m : α), minOf l = some m → ∀ x ∈ l, m ≤ x
  | [], m, h => by simp [minOf] at h
  | x :: xs, m, h => by
    rw [minOf] at h
    intro y hy
    cases hxs : minOf xs with
    | none =>
      rw [hxs] at h
      injection h with h
      subst h
      rcases List.mem_cons.mp hy with rfl | hy'
      · exact le_refl y
      · cases xs with
        | nil => simp at hy'
        | cons z zs =>
          obtain ⟨m2, hm2⟩ := minOf_cons_isSome z zs
          rw [hm2] at hxs
          cases hxs
    | some m2 =>
      rw [hxs] at h
      injection h with h
      subst h
      rcases List.mem_cons.mp hy with rfl | hy'
      · exact min_le_left y m2
      · exact le_trans (min_le_right x m2) (minOf_le xs m2 hxs y hy')


lemma tagsFor_mem_fastest (f : Option ℕ) (w : Option ℤ) (i : ℕ) (c : RawConnection) :
    "fastest" ∈ tagsFor f w i c ↔ f = some (parseDuration c.duration) := by
  simp only [tagsFor, List.mem_append]
  split_ifs <;> simp_all

lemma tagsFor_mem_fewest (f : Option ℕ) (w : Option ℤ) (i : ℕ) (c : RawConnection) :
    "fewest transfers" ∈ tagsFor f w i c ↔ w = some c.transfers := by
  simp only [tagsFor, List.mem_append]
  split_ifs <;> simp_all

lemma tagsFor_mem_recommended (f : Option ℕ) (w : Option ℤ) (i : ℕ) (c : RawConnection) :
    "recommended" ∈ tagsFor f w i c ↔ i = 0 := by
  simp only [tagsFor, List.mem_append]
  split_ifs <;> simp_all

lemma connectionTags_getElem (conns : List RawConnection) (i : ℕ) :
    (connectionTags conns)[i]? =
      (conns[i]?).map (fun c => tagsFor (batchFastest conns) (batchFewest conns) i c) := by
  simp only [connectionTags, List.getElem?_map, List.getElem?_enum]
  cases conns[i]? <;> rfl

/-- C8 (confirmed): for every non-empty batch the tags list has one entry
per connection; some connection is tagged "fastest" and some "fewest
transfers"; at each index the connection is tagged "fastest" iff its
parsed duration equals the batch minimum, "fewest transfers" iff its
provider transfer count equals the batch minimum, and "recommended" iff
the index is 0 (hence exactly the first connection carries it). -/
theorem C8_thm (conns : List RawConnection) (h : conns ≠ []) :
    (connectionTags conns).length = conns.length ∧
    (∃ tg ∈ connectionTags conns, "fastest" ∈ tg) ∧
    (∃ tg ∈ connectionTags conns, "fewest transfers" ∈ tg) ∧
    (∀ (i : ℕ) (c : RawConnection) (tg : List String),
      conns[i]? = some c → (connectionTags conns)[i]? = some tg →
        (("fastest" ∈ tg ↔ batchFastest conns = some (parseDuration c.duration)) ∧
         ("fewest transfers" ∈ tg ↔ batchFewest conns = some c.transfers) ∧
         ("recommended" ∈ tg ↔ i = 0))) := by
  refine ⟨by simp [connectionTags], ?_, ?_, ?_⟩
  · obtain ⟨x, xs, rfl⟩ := List.exists_cons_of_ne_nil h
    obtain ⟨m, hm⟩ := minOf_cons_isSome (parseDuration x.duration)
      ((xs.map fun c => parseDuration c.duration))
    have hm' : batchFastest (x :: xs) = some m := by
      simpa [batchFastest, List.map_cons] using hm
    have hmem : m ∈ (x :: xs).map (fun c => parseDuration c.duration) :=
      minOf_mem _ _ (by simpa [batchFastest] using hm')
    obtain ⟨c, hc, hcm⟩ := List.mem_map.mp hmem
    obtain ⟨i, hi⟩ := List.getElem?_of_mem hc
    refine ⟨tagsFor (batchFastest (x :: xs)) (batchFewest (x :: xs)) i c, ?_, ?_⟩
    · rw [List.mem_iff_getElem?]
      exact ⟨i, by rw [connectionTags_getElem, hi]; rfl⟩
    · rw [tagsFor_mem_fastest, hm', hcm]
  · obtain ⟨x, xs, rfl⟩ := List.exists_cons_of_ne_nil h
    obtain ⟨m, hm⟩ := minOf_cons_isSome x.transfers (xs.map RawConnection.transfers)
    have hm' : batchFewest (x :: xs) = some m := by
      simpa [batchFewest, List.map_cons] using hm
    have hmem : m ∈ (x :: xs).map RawConnection.transfers :=
      minOf_mem _ _ (by simpa [batchFewest] using hm')
    obtain ⟨c, hc, hcm⟩ := List.mem_map.mp hmem
    obtain ⟨i, hi⟩ := List.getElem?_of_mem hc
    refine ⟨tagsFor (batchFastest (x :: xs)) (batchFewest (x :: xs)) i c, ?_, ?_⟩
    · rw [List.mem_iff_getElem?]
      exact ⟨i, by rw [connectionTags_getElem, hi]; rfl⟩
    · rw [tagsFor_mem_fewest, hm', hcm]
  · intro i c tg hc htg
    rw [connectionTags_getElem, hc] at htg
    injection htg with htg
    subst htg
    exact ⟨tagsFor_mem_fastest .., tagsFor_mem_fewest .., tagsFor_mem_recommended ..⟩

/-- C8 witness: the two-connection batch `twoConns` instantiates the
theorem. -/
theorem C8_witness :
    (∃ tg ∈ connectionTags twoConns, "fastest" ∈ tg) ∧
    (∃ tg ∈ connectionTags twoConns, "fewest transfers" ∈ tg) ∧
    (connectionTags twoConns).length = twoConns.length :=
  ⟨(C8_thm twoConns (by decide)).2.1, (C8_thm twoConns (by decide)).2.2.1,
   (C8_thm twoConns (by decide)).1⟩

end SwissTransit
